import Mathlib

/-!
Verification of the engage message cron scheduler
(`src/trackers/engageScheduleTracker.js` and the `initCronJob` bootstrap).

The JavaScript module is embedded shallowly:

* `Time` models the hour/minute view of a `moment` value; `momentOf` models
  `moment(x)`: `moment(undefined)` yields the current time `now`, while
  `moment(t)` for a present timestamp yields that timestamp.
* `ScheduleDate` models the recurrence descriptor with its four optional
  fields; an absent JS property is `none`.
* `createScheduleRule` returns `Except String String`: `.ok` carries the cron
  expression, `.error` models a thrown `TypeError` (the source reads
  `scheduleDate.type.length` without checking that `type` is present).
* The registry `ENGAGE_SCHEDULES` and the exception-carrying mutations are
  modelled as explicit state passing: each operation maps a `SchedState` to
  `SchedState × Option String`, the second component being the thrown error,
  if any.  A thrown error does not roll back mutations already performed,
  exactly as with the in-place JS array.
* `Job.cancel()` is tracked by appending the cancelled handle to a
  `cancelledJobs` trace in the state.
-/

/-- Hour/minute view of a moment timestamp (`time.hour()`, `time.minute()`). -/
structure Time where
  hour : Nat
  minute : Nat
deriving DecidableEq, Repr

/-- The recurrence descriptor `scheduleDate`.  Absent JS fields are `none`. -/
structure ScheduleDate where
  type : Option String
  time : Option Time
  day : Option Nat
  month : Option Nat
deriving DecidableEq, Repr

/-- An engage message: `_id`, recurrence descriptor, and the fields the
bootstrap query filters on. -/
structure Message where
  _id : String
  scheduleDate : Option ScheduleDate
  kind : String
  isLive : Bool
deriving DecidableEq, Repr

/-- A runtime job handle produced by `schedule.scheduleJob(rule, () => send(message))`:
it carries the cron rule it was registered with, the message captured by the
callback closure, and whether `cancel()` has been called on it. -/
structure Job where
  rule : String
  message : Message
  cancelled : Bool
deriving DecidableEq, Repr

/-- One element of the `ENGAGE_SCHEDULES` array: `{ id: message._id, job }`. -/
structure ScheduleEntry where
  id : String
  job : Job
deriving DecidableEq, Repr

/-- The scheduler's mutable world: the `ENGAGE_SCHEDULES` array plus a trace of
every job handle on which `cancel()` was invoked. -/
structure SchedState where
  registry : List ScheduleEntry
  cancelledJobs : List Job
deriving DecidableEq, Repr

/-- `moment(x)`: for `x = undefined` moment returns the current time `now`;
for a present timestamp it returns that timestamp. -/
def momentOf (now : Time) : Option Time → Time
  | none => now
  | some t => t

/-- The `v || '*'` idiom applied to an extracted numeric component: `0` is
falsy in JS, so it is replaced by the wildcard. -/
def cronField (n : Nat) : String :=
  if n = 0 then "*" else toString n

/-- `!scheduleDate.type`: absent or empty string is falsy. -/
def strFalsy : Option String → Bool
  | none => true
  | some s => s == ""

/-- `createScheduleRule(scheduleDate)` from `engageScheduleTracker.js`.
`now` is the wall-clock time at the moment of the call (used by
`moment(undefined)` when `scheduleDate.time` is absent).  Returns `.error`
when the source throws: it reads `scheduleDate.type.length` after the guard,
so a descriptor with `time` set and `type` absent raises a `TypeError`. -/
def createScheduleRule (now : Time) (scheduleDate : Option ScheduleDate) :
    Except String String :=
  match scheduleDate with
  | none => .ok "* 45 23 * "
  | some s =>
    if strFalsy s.type && s.time.isNone then
      .ok "* 45 23 * "
    else
      let time := momentOf now s.time
      let hour := cronField time.hour
      let minute := cronField time.minute
      let month := match s.month with
        | none => "*"
        | some m => cronField m
      match s.type with
      | none => .error "TypeError: Cannot read property length of undefined"
      | some ty =>
        let dayOfWeek := if ty.length = 1 then ty else "*"
        let day :=
          if ty = "month" ∨ ty = "year" then
            match s.day with
            | none => "*"
            | some d => cronField d
          else "*"
        .ok (minute ++ " " ++ hour ++ " " ++ day ++ " " ++ month ++ " " ++ dayOfWeek)

/-- `createSchedule(message)`: compile the rule from `message.scheduleDate`,
register a job whose callback captures `message`, and push
`{ id: message._id, job }` onto the registry.  The argument is optional
because `updateOrRemoveSchedule` passes the raw result of `findOne`, which may
be `null`; destructuring `null` throws.  A thrown error leaves the state as it
was at the point of the throw. -/
def createSchedule (now : Time) (message : Option Message) (st : SchedState) :
    SchedState × Option String :=
  match message with
  | none => (st, some "TypeError: Cannot destructure property scheduleDate of null")
  | some m =>
    match createScheduleRule now m.scheduleDate with
    | .error e => (st, some e)
    | .ok rule =>
      ({ st with registry := st.registry ++ [⟨m._id, ⟨rule, m, false⟩⟩] }, none)

/-- `job.cancel()` on a handle. -/
def cancelJob (j : Job) : Job :=
  { j with cancelled := true }

/-- `findIndex` + `splice(i, 1)` on the registry: locate the first entry whose
id matches and return it together with the remaining list (order preserved);
`none` when no entry matches. -/
def removeFirstById (i : String) : List ScheduleEntry →
    Option (ScheduleEntry × List ScheduleEntry)
  | [] => none
  | e :: rest =>
    if e.id = i then some (e, rest)
    else
      match removeFirstById i rest with
      | none => none
      | some (f, rest') => some (f, e :: rest')

/-- `updateOrRemoveSchedule({ _id }, update)`: find the first registry entry
for `_id` (no-op when absent), cancel its job and splice it out; when `update`
is truthy, re-fetch the message from the store (`EngageMessages.findOne`,
modelled as `List.find?`) and `createSchedule` the result. -/
def updateOrRemoveSchedule (now : Time) (store : List Message) (i : String)
    (update : Bool) (st : SchedState) : SchedState × Option String :=
  match removeFirstById i st.registry with
  | none => (st, none)
  | some (e, rest) =>
    let st1 : SchedState := ⟨rest, st.cancelledJobs ++ [cancelJob e.job]⟩
    if update then
      createSchedule now (store.find? (fun m => m._id == i)) st1
    else
      (st1, none)

/-- The `for (let message of messages) createSchedule(message)` loop of the
bootstrap: stops at the first thrown error (the async function's promise
rejects), keeping the mutations made so far. -/
def runSchedules (now : Time) : List Message → SchedState → SchedState × Option String
  | [], st => (st, none)
  | m :: rest, st =>
    match createSchedule now (some m) st with
    | (st', none) => runSchedules now rest st'
    | (st', some e) => (st', some e)

/-- Boolean form of the bootstrap query
`{ kind: { $in: ['auto', 'visitorAuto'] }, isLive: true }`. -/
def isLiveAuto (m : Message) : Bool :=
  (m.kind == "auto" || m.kind == "visitorAuto") && m.isLive

/-- `initCronJob()`: fetch every live auto message and `createSchedule` each. -/
def initCronJob (now : Time) (store : List Message) (st : SchedState) :
    SchedState × Option String :=
  runSchedules now (store.filter isLiveAuto) st

/-! Concrete fixtures used by counterexamples and witnesses. -/

/-- Wall clock fixed at midnight. -/
def t0 : Time := ⟨0, 0⟩

/-- A weekly descriptor: day-of-week code `"1"`, 10:30. -/
def sdWeekly : ScheduleDate := ⟨some "1", some ⟨10, 30⟩, none, none⟩

/-- A monthly descriptor: type `"month"`, 11:45, day 15. -/
def sdMonthly : ScheduleDate := ⟨some "month", some ⟨11, 45⟩, some 15, none⟩

/-- A live auto message with the weekly descriptor. -/
def msgA : Message := ⟨"m1", some sdWeekly, "auto", true⟩

/-- The same message id after an edit: now carries the monthly descriptor. -/
def msgA2 : Message := ⟨"m1", some sdMonthly, "auto", true⟩

/-- A live message of a kind outside the auto set. -/
def msgB : Message := ⟨"m2", some sdWeekly, "manual", true⟩

/-- An auto message that is not live. -/
def msgC : Message := ⟨"m3", some sdWeekly, "auto", false⟩

/-- A live visitorAuto message with the monthly descriptor. -/
def msgD : Message := ⟨"m4", some sdMonthly, "visitorAuto", true⟩

/-- A store holding a mix of live/not-live, auto/non-auto messages. -/
def bootStore : List Message := [msgA, msgB, msgC, msgD]

/-- The empty scheduler state. -/
def st0 : SchedState := ⟨[], []⟩

/-- The state right after `createSchedule msgA` on the empty state. -/
def stA : SchedState := ⟨[⟨"m1", ⟨"30 10 * * 1", msgA, false⟩⟩], []⟩

/-- C1: `createScheduleRule` is claimed total, but a descriptor with `time`
set and `type` absent passes the fallback guard and then crashes reading
`scheduleDate.type.length`: the function throws instead of returning a cron
expression. -/
theorem createScheduleRule_crashes_on_time_without_type :
    createScheduleRule ⟨0, 0⟩ (some ⟨none, some ⟨10, 30⟩, none, none⟩) =
      .error "TypeError: Cannot read property length of undefined" := by
  rfl

/-- C2: for `time` with hour 7 and minute 5 and `type`/`month`/`day` unset the
claim expects the string `"5 7 * * *"`, but the code throws a `TypeError`
before reaching the template: no string is produced. -/
theorem createScheduleRule_crashes_on_plain_time_descriptor :
    createScheduleRule ⟨0, 0⟩ (some ⟨none, some ⟨7, 5⟩, none, none⟩) =
      .error "TypeError: Cannot read property length of undefined" := by
  rfl

/-- `removeFirstById` finds nothing when no entry has the id. -/
theorem removeFirstById_eq_none (i : String) (l : List ScheduleEntry)
    (h : ∀ e ∈ l, e.id ≠ i) : removeFirstById i l = none := by
  induction l with
  | nil => rfl
  | cons e rest ih =>
    simp only [removeFirstById]
    rw [if_neg (h e (by simp))]
    rw [ih (fun x hx => h x (by simp [hx]))]

/-- `removeFirstById` on a list whose first matching entry is `e` removes
exactly `e` and keeps everything else in order. -/
theorem removeFirstById_append (i : String) (pre post : List ScheduleEntry)
    (e : ScheduleEntry) (hpre : ∀ x ∈ pre, x.id ≠ i) (he : e.id = i) :
    removeFirstById i (pre ++ e :: post) = some (e, pre ++ post) := by
  induction pre with
  | nil => simp [removeFirstById, he]
  | cons a pre ih =>
    have hrest := ih (fun x hx => hpre x (by simp [hx]))
    simp only [List.cons_append, removeFirstById, List.append_eq, hrest]
    rw [if_neg (hpre a (by simp))]

/-- Inversion for `removeFirstById`: a successful removal decomposes the list
around the first matching entry. -/
theorem removeFirstById_some (i : String) (l : List ScheduleEntry)
    (e : ScheduleEntry) (rest : List ScheduleEntry)
    (h : removeFirstById i l = some (e, rest)) :
    e.id = i ∧ ∃ pre post, l = pre ++ e :: post ∧ rest = pre ++ post ∧
      ∀ x ∈ pre, x.id ≠ i := by
  induction l generalizing rest with
  | nil => simp [removeFirstById] at h
  | cons a l ih =>
    simp only [removeFirstById] at h
    by_cases ha : a.id = i
    · rw [if_pos ha] at h
      simp only [Option.some.injEq, Prod.mk.injEq] at h
      obtain ⟨rfl, rfl⟩ := h
      exact ⟨ha, [], l, rfl, rfl, by simp⟩
    · rw [if_neg ha] at h
      cases hrec : removeFirstById i l with
      | none => rw [hrec] at h; simp at h
      | some p =>
        obtain ⟨f, rest'⟩ := p
        rw [hrec] at h
        simp only [Option.some.injEq, Prod.mk.injEq] at h
        obtain ⟨rfl, rfl⟩ := h
        obtain ⟨hid, pre, post, hl, hr, hnone⟩ := ih rest' hrec
        refine ⟨hid, a :: pre, post, by simp [hl], by simp [hr], ?_⟩
        intro x hx
        rcases List.mem_cons.mp hx with rfl | hx
        · exact ha
        · exact hnone x hx

/-- Inversion for `createSchedule` on a present message: either the rule
compiled and exactly one entry was appended, or the compiler threw and the
state is untouched. -/
theorem createSchedule_some_inv (now : Time) (m : Message) (st st1 : SchedState)
    (err : Option String) (h : createSchedule now (some m) st = (st1, err)) :
    (err = none ∧ ∃ r, createScheduleRule now m.scheduleDate = .ok r ∧
      st1 = { st with registry := st.registry ++ [⟨m._id, ⟨r, m, false⟩⟩] })
    ∨ (∃ e, err = some e ∧ st1 = st) := by
  simp only [createSchedule] at h
  cases hcr : createScheduleRule now m.scheduleDate with
  | error e =>
    rw [hcr] at h
    simp only [Prod.mk.injEq] at h
    exact Or.inr ⟨e, h.2.symm, h.1.symm⟩
  | ok r =>
    rw [hcr] at h
    simp only [Prod.mk.injEq] at h
    exact Or.inl ⟨h.2.symm, r, rfl, h.1.symm⟩

/-- Removing an entry for `i` and (possibly) appending a re-fetched entry for
the same id preserves uniqueness of registry ids. -/
theorem nodup_registry_updateOrRemove (now : Time) (store : List Message)
    (i : String) (update : Bool) (st : SchedState)
    (h : (st.registry.map (fun e => e.id)).Nodup) :
    (((updateOrRemoveSchedule now store i update st).1).registry.map
      (fun e => e.id)).Nodup := by
  cases hr : removeFirstById i st.registry with
  | none => simpa [updateOrRemoveSchedule, hr] using h
  | some p =>
    obtain ⟨e, rest⟩ := p
    obtain ⟨hid, pre, post, hl, hrest, hpre⟩ :=
      removeFirstById_some i st.registry e rest hr
    rw [hl] at h
    simp only [List.map_append, List.map_cons, List.nodup_append,
      List.nodup_cons, List.disjoint_cons_right] at h
    obtain ⟨hnpre, ⟨hePost, hnpost⟩, hePre, hdisj⟩ := h
    have hrestNodup : (rest.map (fun e => e.id)).Nodup := by
      rw [hrest]
      simp only [List.map_append, List.nodup_append]
      exact ⟨hnpre, hnpost, hdisj⟩
    have heRest : e.id ∉ rest.map (fun e => e.id) := by
      rw [hrest]
      simp only [List.map_append, List.mem_append]
      rintro (hc | hc)
      · exact hePre hc
      · exact hePost hc
    simp only [updateOrRemoveSchedule, hr]
    by_cases hu : update = true
    · rw [if_pos hu]
      cases hf : store.find? (fun m => m._id == i) with
      | none => simpa [createSchedule, hf] using hrestNodup
      | some m2 =>
        have hm2 : m2._id = i := by
          have h2 := List.find?_some hf
          simpa using h2
        cases hq : createSchedule now (some m2)
            ⟨rest, st.cancelledJobs ++ [cancelJob e.job]⟩ with
        | mk st2 err =>
          rcases createSchedule_some_inv now m2 _ st2 err hq with
            ⟨-, r, -, rfl⟩ | ⟨e2, -, rfl⟩
          · rw [List.map_append]
            refine List.Nodup.append hrestNodup (by simp) ?_
            intro a ha hb
            simp only [List.map_cons, List.map_nil, List.mem_cons,
              List.not_mem_nil, or_false] at hb
            exact heRest (by rw [hid, ← hm2, ← hb]; exact ha)
          · exact hrestNodup
    · rw [if_neg hu]
      exact hrestNodup

/-- Appending an entry for an id not yet in the registry preserves uniqueness
of registry ids. -/
theorem nodup_registry_createSchedule (now : Time) (m : Message) (st : SchedState)
    (h : (st.registry.map (fun e => e.id)).Nodup)
    (hm : m._id ∉ st.registry.map (fun e => e.id)) :
    (((createSchedule now (some m) st).1).registry.map (fun e => e.id)).Nodup := by
  cases hc : createSchedule now (some m) st with
  | mk st1 err =>
    rcases createSchedule_some_inv now m st st1 err hc with
      ⟨-, r, -, rfl⟩ | ⟨e, -, rfl⟩
    · rw [List.map_append]
      refine List.Nodup.append h (by simp) ?_
      intro a ha hb
      simp only [List.map_cons, List.map_nil, List.mem_cons,
        List.not_mem_nil, or_false] at hb
      exact hm (hb ▸ ha)
    · exact h

/-- The bootstrap loop preserves uniqueness of registry ids when the scheduled
messages have pairwise distinct ids, none already present. -/
theorem nodup_registry_runSchedules (now : Time) (msgs : List Message)
    (st : SchedState) (h : (st.registry.map (fun e => e.id)).Nodup)
    (hm : (msgs.map (fun m => m._id)).Nodup)
    (hd : ∀ m ∈ msgs, m._id ∉ st.registry.map (fun e => e.id)) :
    (((runSchedules now msgs st).1).registry.map (fun e => e.id)).Nodup := by
  induction msgs generalizing st with
  | nil => simpa [runSchedules] using h
  | cons m rest ih =>
    simp only [runSchedules]
    cases hc : createSchedule now (some m) st with
    | mk st1 err =>
      rcases createSchedule_some_inv now m st st1 err hc with
        ⟨rfl, r, -, rfl⟩ | ⟨e, rfl, rfl⟩
      · simp only [List.map_cons, List.nodup_cons] at hm
        have h1 := nodup_registry_createSchedule now m st h (hd m (by simp))
        rw [hc] at h1
        refine ih _ h1 hm.2 ?_
        intro m' hm'
        simp only [List.map_append, List.map_cons, List.map_nil, List.mem_append,
          List.mem_cons, List.not_mem_nil, or_false]
        rintro (hc2 | hc2)
        · exact hd m' (by simp [hm']) hc2
        · exact hm.1 (hc2 ▸ List.mem_map_of_mem (fun m => m._id) hm')
      · exact h

/-- C3 (counterexample): `createSchedule` performs no duplicate check:
invoking it twice for the same message leaves two registry entries whose id
is `"m1"`, so the at-most-one-entry-per-id invariant fails. -/
theorem createSchedule_twice_duplicates :
    (((createSchedule t0 (some msgA) ((createSchedule t0 (some msgA) st0).1)).1).registry.map
       (fun e => e.id)) = ["m1", "m1"] ∧
    ¬ (((createSchedule t0 (some msgA) ((createSchedule t0 (some msgA) st0).1)).1).registry.map
       (fun e => e.id)).Nodup := by
  constructor
  · rfl
  · decide

/-- C3 (amended): `updateOrRemoveSchedule` always preserves uniqueness of
registry ids, and `createSchedule` preserves it when the message's id has no
entry yet; the bootstrap preserves it when the live auto messages have
pairwise distinct ids, none already registered.  `createSchedule` itself does
no duplicate check, so calling it twice for one message breaks uniqueness. -/
theorem registry_uniqueness_amended (now : Time) (store : List Message)
    (i : String) (update : Bool) (st : SchedState) (msg : Message) :
    ((st.registry.map (fun e => e.id)).Nodup →
      (((updateOrRemoveSchedule now store i update st).1).registry.map
        (fun e => e.id)).Nodup) ∧
    ((st.registry.map (fun e => e.id)).Nodup →
      msg._id ∉ st.registry.map (fun e => e.id) →
      (((createSchedule now (some msg) st).1).registry.map (fun e => e.id)).Nodup) ∧
    ((st.registry.map (fun e => e.id)).Nodup →
      ((store.filter isLiveAuto).map (fun m => m._id)).Nodup →
      (∀ m ∈ store.filter isLiveAuto, m._id ∉ st.registry.map (fun e => e.id)) →
      (((initCronJob now store st).1).registry.map (fun e => e.id)).Nodup) :=
  ⟨fun h => nodup_registry_updateOrRemove now store i update st h,
   fun h hm => nodup_registry_createSchedule now msg st h hm,
   fun h hm hd => nodup_registry_runSchedules now (store.filter isLiveAuto) st h hm hd⟩

/-- C3 (witness): the amended uniqueness statement at concrete inputs. -/
theorem registry_uniqueness_amended_witness :
    (((updateOrRemoveSchedule t0 [msgA2] "m1" true stA).1).registry.map
      (fun e => e.id)).Nodup ∧
    (((createSchedule t0 (some msgD) stA).1).registry.map (fun e => e.id)).Nodup ∧
    (((initCronJob t0 bootStore st0).1).registry.map (fun e => e.id)).Nodup :=
  ⟨(registry_uniqueness_amended t0 [msgA2] "m1" true stA msgD).1 (by decide),
   (registry_uniqueness_amended t0 [msgA2] "m1" true stA msgD).2.1 (by decide) (by decide),
   (registry_uniqueness_amended t0 bootStore "m1" true st0 msgD).2.2 (by decide)
     (by decide) (by decide)⟩

/-- A successful bootstrap loop appends exactly one entry per listed message,
in order, capturing that message in the job callback; it cancels nothing. -/
theorem runSchedules_ok (now : Time) (msgs : List Message) (st st' : SchedState)
    (h : runSchedules now msgs st = (st', none)) :
    st'.registry.map (fun e => e.job.message) =
      st.registry.map (fun e => e.job.message) ++ msgs ∧
    st'.registry.map (fun e => e.id) =
      st.registry.map (fun e => e.id) ++ msgs.map (fun m => m._id) ∧
    st'.cancelledJobs = st.cancelledJobs := by
  induction msgs generalizing st with
  | nil =>
    simp only [runSchedules, Prod.mk.injEq] at h
    rw [← h.1]
    simp
  | cons m rest ih =>
    simp only [runSchedules] at h
    cases hc : createSchedule now (some m) st with
    | mk st1 err =>
      rw [hc] at h
      rcases createSchedule_some_inv now m st st1 err hc with
        ⟨rfl, r, -, rfl⟩ | ⟨e, rfl, rfl⟩
      · obtain ⟨h1, h2, h3⟩ := ih _ h
        refine ⟨?_, ?_, ?_⟩
        · rw [h1]; simp
        · rw [h2]; simp
        · rw [h3]
      · simp at h

/-- C8: a successful bootstrap calls `createSchedule` exactly for the
messages whose kind is auto/visitorAuto and whose `isLive` flag is true, in
store order, and registers an entry for each; no other message is
registered. -/
theorem initCronJob_registers_live_auto (now : Time) (store : List Message)
    (st st' : SchedState) (h : initCronJob now store st = (st', none)) :
    st'.registry.map (fun e => e.job.message) =
      st.registry.map (fun e => e.job.message) ++ store.filter isLiveAuto ∧
    st'.registry.map (fun e => e.id) =
      st.registry.map (fun e => e.id) ++
        (store.filter isLiveAuto).map (fun m => m._id) := by
  obtain ⟨h1, h2, -⟩ := runSchedules_ok now (store.filter isLiveAuto) st st' h
  exact ⟨h1, h2⟩

/-- C8 (witness): bootstrapping a store holding a live auto message, a live
non-auto message, a non-live auto message and a live visitorAuto message
registers exactly the first and last. -/
theorem initCronJob_registers_live_auto_witness :
    (⟨[⟨"m1", ⟨"30 10 * * 1", msgA, false⟩⟩,
       ⟨"m4", ⟨"45 11 15 * *", msgD, false⟩⟩], []⟩ : SchedState).registry.map
        (fun e => e.job.message) =
      st0.registry.map (fun e => e.job.message) ++ bootStore.filter isLiveAuto ∧
    (⟨[⟨"m1", ⟨"30 10 * * 1", msgA, false⟩⟩,
       ⟨"m4", ⟨"45 11 15 * *", msgD, false⟩⟩], []⟩ : SchedState).registry.map
        (fun e => e.id) =
      st0.registry.map (fun e => e.id) ++
        (bootStore.filter isLiveAuto).map (fun m => m._id) :=
  initCronJob_registers_live_auto t0 bootStore st0 _ (by decide)

/-- C6: `updateOrRemoveSchedule` with an id holding no registry entry returns
without error and without touching the state, whatever `update` is; and when
the registry holds at most one entry for the id, a second removal call right
after a first one is a no-op on the state the first call produced. -/
theorem updateOrRemoveSchedule_missing_id_noop (now : Time) (store : List Message)
    (i : String) (st : SchedState) :
    ((∀ e ∈ st.registry, e.id ≠ i) →
      ∀ update, updateOrRemoveSchedule now store i update st = (st, none)) ∧
    (st.registry.countP (fun e => e.id == i) ≤ 1 →
      updateOrRemoveSchedule now store i false
        ((updateOrRemoveSchedule now store i false st).1) =
      ((updateOrRemoveSchedule now store i false st).1, none)) := by
  constructor
  · intro h update
    simp [updateOrRemoveSchedule, removeFirstById_eq_none i st.registry h]
  · intro hcount
    cases hr : removeFirstById i st.registry with
    | none => simp [updateOrRemoveSchedule, hr]
    | some p =>
      obtain ⟨e, rest⟩ := p
      obtain ⟨hid, pre, post, hl, hrest, hpre⟩ :=
        removeFirstById_some i st.registry e rest hr
      have hpost : ∀ x ∈ post, x.id ≠ i := by
        intro x hx heq
        rw [hl] at hcount
        have h1 : 0 < post.countP (fun x => x.id == i) :=
          List.countP_pos_iff.mpr ⟨x, hx, by simp [heq]⟩
        simp only [List.countP_append, List.countP_cons, hid] at hcount
        simp at hcount
        omega
      have hnone : removeFirstById i rest = none := by
        apply removeFirstById_eq_none
        intro x hx
        rw [hrest] at hx
        rcases List.mem_append.mp hx with hx | hx
        · exact hpre x hx
        · exact hpost x hx
      simp [updateOrRemoveSchedule, hr, hnone]

/-- C6 (witness): the no-op behavior on a one-entry registry, for a missing
id and for a repeated removal of the present id. -/
theorem updateOrRemoveSchedule_missing_id_noop_witness :
    updateOrRemoveSchedule t0 [] "zz" true stA = (stA, none) ∧
    updateOrRemoveSchedule t0 [] "m1" false
        ((updateOrRemoveSchedule t0 [] "m1" false stA).1) =
      ((updateOrRemoveSchedule t0 [] "m1" false stA).1, none) :=
  ⟨(updateOrRemoveSchedule_missing_id_noop t0 [] "zz" stA).1 (by decide) true,
   (updateOrRemoveSchedule_missing_id_noop t0 [] "m1" stA).2 (by decide)⟩

/-- C10: a call that finds a matching entry cancels and removes exactly the
first entry whose id matches; every earlier entry, every entry with another
id and every later duplicate for the same id stays, in the original relative
order (plus at most one appended re-created entry when `update` is set). -/
theorem updateOrRemoveSchedule_removes_first_only (now : Time) (store : List Message)
    (i : String) (update : Bool) (pre post : List ScheduleEntry) (e : ScheduleEntry)
    (cj : List Job) (hpre : ∀ x ∈ pre, x.id ≠ i) (he : e.id = i) :
    ∃ extra err,
      updateOrRemoveSchedule now store i update ⟨pre ++ e :: post, cj⟩ =
        (⟨(pre ++ post) ++ extra, cj ++ [cancelJob e.job]⟩, err) ∧
      extra.length ≤ 1 ∧
      (update = false → extra = [] ∧ err = none) := by
  have hrm : removeFirstById i (pre ++ e :: post) = some (e, pre ++ post) :=
    removeFirstById_append i pre post e hpre he
  cases update with
  | false =>
    refine ⟨[], none, ?_, by simp, fun _ => ⟨rfl, rfl⟩⟩
    simp [updateOrRemoveSchedule, hrm]
  | true =>
    cases hf : store.find? (fun m => m._id == i) with
    | none =>
      refine ⟨[], some "TypeError: Cannot destructure property scheduleDate of null",
        ?_, by simp, by simp⟩
      simp [updateOrRemoveSchedule, hrm, hf, createSchedule]
    | some m2 =>
      cases hcr : createScheduleRule now m2.scheduleDate with
      | error e2 =>
        refine ⟨[], some e2, ?_, by simp, by simp⟩
        simp [updateOrRemoveSchedule, hrm, hf, createSchedule, hcr]
      | ok r =>
        refine ⟨[⟨m2._id, ⟨r, m2, false⟩⟩], none, ?_, by simp, by simp⟩
        simp [updateOrRemoveSchedule, hrm, hf, createSchedule, hcr]

/-- C10 (witness): on a registry `[a, m, m]` a removal of `"m"` cancels and
drops only the first `"m"` entry; the other-id entry and the later duplicate
stay in order. -/
theorem updateOrRemoveSchedule_removes_first_only_witness :
    ∃ extra err,
      updateOrRemoveSchedule t0 [] "m" false
          ⟨[⟨"a", ⟨"* * * * *", msgB, false⟩⟩] ++
            ⟨"m", ⟨"1 2 * * *", msgA, false⟩⟩ :: [⟨"m", ⟨"3 4 * * *", msgA, false⟩⟩], []⟩ =
        (⟨([⟨"a", ⟨"* * * * *", msgB, false⟩⟩] ++ [⟨"m", ⟨"3 4 * * *", msgA, false⟩⟩]) ++ extra,
          [] ++ [cancelJob ⟨"1 2 * * *", msgA, false⟩]⟩, err) ∧
      extra.length ≤ 1 ∧
      (false = false → extra = [] ∧ err = none) :=
  updateOrRemoveSchedule_removes_first_only t0 [] "m" false
    [⟨"a", ⟨"* * * * *", msgB, false⟩⟩] [⟨"m", ⟨"3 4 * * *", msgA, false⟩⟩]
    ⟨"m", ⟨"1 2 * * *", msgA, false⟩⟩ [] (by decide) (by decide)

/-- C9: when an entry exists, `update` is truthy and the re-fetch finds no
message, the call throws (destructuring `null`); the cancel and the removal
already performed stay in effect and no new entry is registered. -/
theorem update_error_not_rolled_back (now : Time) (store : List Message) (i : String)
    (pre post : List ScheduleEntry) (e : ScheduleEntry) (cj : List Job)
    (hpre : ∀ x ∈ pre, x.id ≠ i) (he : e.id = i)
    (hfind : store.find? (fun m => m._id == i) = none) :
    updateOrRemoveSchedule now store i true ⟨pre ++ e :: post, cj⟩ =
      (⟨pre ++ post, cj ++ [cancelJob e.job]⟩,
        some "TypeError: Cannot destructure property scheduleDate of null") := by
  have hrm : removeFirstById i (pre ++ e :: post) = some (e, pre ++ post) :=
    removeFirstById_append i pre post e hpre he
  simp [updateOrRemoveSchedule, hrm, hfind, createSchedule]

/-- C9 (witness): removing-with-update on a one-entry registry backed by an
empty store throws and leaves the entry removed. -/
theorem update_error_not_rolled_back_witness :
    updateOrRemoveSchedule t0 [] "m1" true
        ⟨[] ++ ⟨"m1", ⟨"30 10 * * 1", msgA, false⟩⟩ :: [], []⟩ =
      (⟨[] ++ [], [] ++ [cancelJob ⟨"30 10 * * 1", msgA, false⟩]⟩,
        some "TypeError: Cannot destructure property scheduleDate of null") :=
  update_error_not_rolled_back t0 [] "m1" [] []
    ⟨"m1", ⟨"30 10 * * 1", msgA, false⟩⟩ [] (by decide) (by decide) (by decide)

/-- C7: after `createSchedule msg` on a registry without `msg._id`, an
update call re-fetches the (possibly edited) stored message, cancels the old
job, and leaves exactly one entry for the id, compiled from the re-fetched
message's descriptor. -/
theorem update_refreshes_schedule (now : Time) (store : List Message)
    (msg msg2 : Message) (r : String) (st st1 : SchedState)
    (hfresh : ∀ e ∈ st.registry, e.id ≠ msg._id)
    (hcreate : createSchedule now (some msg) st = (st1, none))
    (hfind : store.find? (fun m => m._id == msg._id) = some msg2)
    (hrule : createScheduleRule now msg2.scheduleDate = .ok r) :
    ∃ st2, updateOrRemoveSchedule now store msg._id true st1 = (st2, none) ∧
      st2.registry = st.registry ++ [⟨msg._id, ⟨r, msg2, false⟩⟩] ∧
      st2.registry.filter (fun e => e.id == msg._id) = [⟨msg._id, ⟨r, msg2, false⟩⟩] ∧
      ∃ oldJob, st2.cancelledJobs = st.cancelledJobs ++ [cancelJob oldJob] ∧
        oldJob.message = msg := by
  rcases createSchedule_some_inv now msg st st1 none hcreate with
    ⟨-, r0, hr0, rfl⟩ | ⟨e, he, -⟩
  · have hm2 : msg2._id = msg._id := by
      have h2 := List.find?_some hfind
      simpa using h2
    have hrm : removeFirstById msg._id (st.registry ++ [⟨msg._id, ⟨r0, msg, false⟩⟩]) =
        some (⟨msg._id, ⟨r0, msg, false⟩⟩, st.registry ++ []) :=
      removeFirstById_append msg._id st.registry [] ⟨msg._id, ⟨r0, msg, false⟩⟩ hfresh rfl
    have h0 : st.registry.filter (fun e => e.id == msg._id) = [] := by
      rw [List.filter_eq_nil_iff]
      intro a ha
      simp [hfresh a ha]
    refine ⟨⟨st.registry ++ [⟨msg2._id, ⟨r, msg2, false⟩⟩],
      st.cancelledJobs ++ [cancelJob ⟨r0, msg, false⟩]⟩, ?_, ?_, ?_,
      ⟨r0, msg, false⟩, rfl, rfl⟩
    · simp [updateOrRemoveSchedule, hrm, hfind, createSchedule, hrule]
    · simp [hm2]
    · rw [List.filter_append, h0]
      simp [hm2]
  · exact absurd he (by simp)

/-- C7 (witness): after scheduling `msgA`, editing the stored message to the
monthly descriptor and calling update leaves one entry for `"m1"` compiled
from the new descriptor, with the old job cancelled. -/
theorem update_refreshes_schedule_witness :
    ∃ st2, updateOrRemoveSchedule t0 [msgA2] msgA._id true stA = (st2, none) ∧
      st2.registry = st0.registry ++ [⟨msgA._id, ⟨"45 11 15 * *", msgA2, false⟩⟩] ∧
      st2.registry.filter (fun e => e.id == msgA._id) =
        [⟨msgA._id, ⟨"45 11 15 * *", msgA2, false⟩⟩] ∧
      ∃ oldJob, st2.cancelledJobs = st0.cancelledJobs ++ [cancelJob oldJob] ∧
        oldJob.message = msgA :=
  update_refreshes_schedule t0 [msgA2] msgA msgA2 "45 11 15 * *" st0 stA
    (by decide) (by decide) (by decide) rfl

/-- On the extraction path — descriptor present, `type` a present string, and
the fallback guard not taken — the compiled expression is the five-field
template of the source. -/
theorem createScheduleRule_extraction (now : Time) (sd : ScheduleDate) (ty : String)
    (h1 : sd.type = some ty) (h2 : ty ≠ "" ∨ sd.time ≠ none) :
    createScheduleRule now (some sd) =
      .ok (cronField (momentOf now sd.time).minute ++ " " ++
        cronField (momentOf now sd.time).hour ++ " " ++
        (if ty = "month" ∨ ty = "year" then
          (match sd.day with
           | none => "*"
           | some d => cronField d)
         else "*") ++ " " ++
        (match sd.month with
         | none => "*"
         | some m => cronField m) ++ " " ++
        (if ty.length = 1 then ty else "*")) := by
  have hguard : (strFalsy (some ty) && sd.time.isNone) = false := by
    rcases h2 with h | h
    · simp [strFalsy, h]
    · cases ht : sd.time with
      | none => exact absurd ht h
      | some t => simp [ht]
  simp only [createScheduleRule, h1, hguard, Bool.false_eq_true, if_false]

/-- C5: on the extraction path an extracted hour of 0 appears as `"*"` in the
hour slot and an extracted minute of 0 as `"*"` in the minute slot of the
compiled expression; the zero is never emitted as the digit `"0"`. -/
theorem zero_hour_minute_wildcard (now : Time) (sd : ScheduleDate) (ty : String)
    (h1 : sd.type = some ty) (h2 : ty ≠ "" ∨ sd.time ≠ none) :
    ∃ d mo dw, createScheduleRule now (some sd) =
      .ok (cronField (momentOf now sd.time).minute ++ " " ++
        cronField (momentOf now sd.time).hour ++ " " ++ d ++ " " ++ mo ++ " " ++ dw) ∧
      ((momentOf now sd.time).hour = 0 → cronField (momentOf now sd.time).hour = "*") ∧
      ((momentOf now sd.time).minute = 0 → cronField (momentOf now sd.time).minute = "*") ∧
      cronField 0 ≠ "0" := by
  refine ⟨_, _, _, createScheduleRule_extraction now sd ty h1 h2, ?_, ?_, ?_⟩
  · intro h; simp [cronField, h]
  · intro h; simp [cronField, h]
  · simp [cronField]

/-- C5 (witness): a midnight timestamp (hour 0, minute 0) compiles with both
leading fields wildcarded. -/
theorem zero_hour_minute_wildcard_witness :
    ∃ d mo dw, createScheduleRule t0 (some ⟨some "1", some ⟨0, 0⟩, none, none⟩) =
      .ok (cronField 0 ++ " " ++ cronField 0 ++ " " ++ d ++ " " ++ mo ++ " " ++ dw) ∧
      ((0 : Nat) = 0 → cronField 0 = "*") ∧
      ((0 : Nat) = 0 → cronField 0 = "*") ∧
      cronField 0 ≠ "0" :=
  zero_hour_minute_wildcard t0 ⟨some "1", some ⟨0, 0⟩, none, none⟩ "1" rfl
    (Or.inl (by decide))

/-- C4 (counterexample): at wall-clock 09:30 a descriptor on the extraction
path with `time` absent compiles to `"30 9 15 * *"`: its minute and hour
fields hold the current time's components, not the wildcard. -/
theorem absent_time_not_wildcard :
    createScheduleRule ⟨9, 30⟩ (some ⟨some "month", none, some 15, none⟩) =
      .ok ("30" ++ " " ++ "9" ++ " " ++ "15" ++ " " ++ "*" ++ " " ++ "*") ∧
    "30" ≠ "*" ∧ "9" ≠ "*" := by
  refine ⟨rfl, ?_, ?_⟩ <;> decide

/-- C4 (amended): with `time` absent, `moment(undefined)` yields the current
wall-clock time, so the minute and hour fields are the current minute and
hour, each coerced to `"*"` only when that component is zero. -/
theorem absent_time_uses_current_time (now : Time) (sd : ScheduleDate) (ty : String)
    (h1 : sd.type = some ty) (hty : ty ≠ "") (ht : sd.time = none) :
    ∃ d mo dw, createScheduleRule now (some sd) =
      .ok (cronField now.minute ++ " " ++ cronField now.hour ++ " " ++
        d ++ " " ++ mo ++ " " ++ dw) ∧
      (now.minute = 0 → cronField now.minute = "*") ∧
      (now.hour = 0 → cronField now.hour = "*") := by
  have hx := createScheduleRule_extraction now sd ty h1 (Or.inl hty)
  rw [ht] at hx
  simp only [momentOf] at hx
  refine ⟨_, _, _, hx, ?_, ?_⟩
  · intro h; simp [cronField, h]
  · intro h; simp [cronField, h]

/-- C4 (amended, witness): the 09:30 compilation of the time-less monthly
descriptor, with both leading fields at the current time. -/
theorem absent_time_uses_current_time_witness :
    ∃ d mo dw, createScheduleRule ⟨9, 30⟩ (some ⟨some "month", none, some 15, none⟩) =
      .ok (cronField 30 ++ " " ++ cronField 9 ++ " " ++ d ++ " " ++ mo ++ " " ++ dw) ∧
      ((30 : Nat) = 0 → cronField 30 = "*") ∧
      ((9 : Nat) = 0 → cronField 9 = "*") :=
  absent_time_uses_current_time ⟨9, 30⟩ ⟨some "month", none, some 15, none⟩ "month"
    rfl (by decide) rfl
